import Mathlib

/-!
# Verification of the secure financial-data pipeline

A shallow embedding of `src/utils/secureDataProcessor.js` from the
`financial-dashboard` repository, together with theorems settling the
frozen claims about its specification.

Modelling conventions:

* JavaScript runtime values that flow through the validators are modelled
  by the inductive type `JSValue` (strings, finite numbers, `NaN`,
  `null`, `undefined`, booleans).  Finite JS numbers are modelled as
  rationals (`ℚ`); none of the verified properties depends on binary
  floating-point rounding.
* JavaScript strings are Lean `String`s, but all manipulation is done on
  their underlying `List Char` so that every definition reduces inside
  the kernel.
* Platform built-ins used by the source (`parseInt`, `parseFloat`,
  `new Date(string)`, `new URL(string)`, `Array.prototype.sort`) are not
  repository code; they are modelled here for the input domain the
  pipeline feeds them: base-10 integer/decimal literals without exponent
  notation, ISO `YYYY-MM-DD` date strings interpreted in UTC, absolute
  `scheme://host/...` URLs (already lower-case normalisation of scheme
  and host is modelled), and a stable ascending sort (`List.mergeSort`,
  which is stable, exactly like the ECMAScript `sort`).
* A JS function returning `null` for "invalid" is modelled with
  `Option`; a function that can `throw` is modelled with `Except String`.
* JS objects used as string-keyed dictionaries (`groupedData`) are
  modelled as insertion-ordered association lists; the ECMAScript
  reordering of integer-like keys is not modelled (company names act as
  plain string keys).
-/

/-- A JavaScript value as seen by the validators: a string, a finite
number (modelled as a rational), `NaN`, `null`, `undefined` or a
boolean. -/
inductive JSValue where
  | str (s : String)
  | num (q : ℚ)
  | nan
  | nullv
  | undef
  | boolv (b : Bool)
deriving DecidableEq

deriving instance DecidableEq for Except

/-- JavaScript truthiness of a value (`Boolean(v)`). -/
def jsTruthy : JSValue → Bool
  | .str s => !(s.data.isEmpty)
  | .num q => decide (q ≠ 0)
  | .nan => false
  | .nullv => false
  | .undef => false
  | .boolv b => b

/-- The whitespace characters recognised by `String.prototype.trim`
(the common ones: space, tab, LF, CR, FF, VT). -/
def isJSSpace (c : Char) : Bool :=
  c == ' ' || c == '\t' || c == '\n' || c == '\r' || c.toNat == 12 || c.toNat == 11

/-- `String.prototype.trim` on the character list. -/
def jsTrim (l : List Char) : List Char :=
  ((l.dropWhile isJSSpace).reverse.dropWhile isJSSpace).reverse

/-- Decimal digit test. -/
def isDigitChar (c : Char) : Bool :=
  48 ≤ c.toNat && c.toNat ≤ 57

/-- Numeric value of a list of decimal digits (most significant first). -/
def digitsVal (l : List Char) : Nat :=
  l.foldl (fun acc c => 10 * acc + (c.toNat - 48)) 0

/-- Split an optional leading sign off a character list, returning the
sign as `1` or `-1`. -/
def splitSign : List Char → Int × List Char
  | '-' :: rest => (-1, rest)
  | '+' :: rest => (1, rest)
  | l => (1, l)

/-- Model of the `parseInt(s, 10)` string grammar: trim, optional sign,
then a non-empty run of decimal digits; trailing garbage is ignored,
no digits at all gives `NaN` (modelled as `none`). -/
def jsParseIntChars (l : List Char) : Option Int :=
  let l1 := jsTrim l
  let sr := splitSign l1
  let digits := sr.2.takeWhile isDigitChar
  if digits.isEmpty then none
  else some (sr.1 * (digitsVal digits : Int))

/-- Model of the `parseFloat(s)` string grammar for decimal literals:
trim, optional sign, integer part, optional fractional part; trailing
garbage is ignored, no digits at all gives `NaN` (modelled as `none`).
Exponent notation and the literal `Infinity` are not modelled: the
validators discard non-finite results anyway, so both give `none`. -/
def jsParseFloatChars (l : List Char) : Option ℚ :=
  let l1 := jsTrim l
  let sr := splitSign l1
  let ip := sr.2.takeWhile isDigitChar
  let rest := sr.2.dropWhile isDigitChar
  match rest with
  | '.' :: rest2 =>
    let fp := rest2.takeWhile isDigitChar
    if ip.isEmpty && fp.isEmpty then none
    else
      some (Rat.divInt (sr.1 * ((digitsVal ip * 10 ^ fp.length + digitsVal fp : Nat) : Int))
        ((10 ^ fp.length : Nat) : Int))
  | _ =>
    if ip.isEmpty then none
    else some (Rat.divInt (sr.1 * (digitsVal ip : Int)) 1)

/-- Truncation of a rational toward zero, as JS number-to-int32-free
`parseInt` of a finite number's decimal rendering behaves for ordinary
magnitudes. -/
def ratTrunc (q : ℚ) : Int :=
  q.num.tdiv (q.den : Int)

/-- Model of `parseFloat(value)`: a finite number parses to itself, a
string through the decimal grammar, everything else (after ToString:
`NaN`, `null`, `undefined`, booleans) to `NaN` (`none`). -/
def jsParseFloat : JSValue → Option ℚ
  | .num q => some q
  | .str s => jsParseFloatChars s.data
  | _ => none

/-- Model of `parseInt(value, 10)`: a finite number is rendered in
decimal and truncated toward zero (faithful below the exponent-notation
threshold), a string goes through the integer grammar, everything else
to `NaN` (`none`). -/
def jsParseInt : JSValue → Option Int
  | .num q => some (ratTrunc q)
  | .str s => jsParseIntChars s.data
  | _ => none

/-- The characters stripped by `validateString`:
`<`, `>`, `"` (code 34), `'` (code 39), `&`. -/
def isDangerousChar (c : Char) : Bool :=
  c == '<' || c == '>' || c == Char.ofNat 34 || c == Char.ofNat 39 || c == '&'

/-- `validateString(value, maxLength)` (source lines 13–17): rejects
non-string input, strips dangerous characters, trims, truncates to
`maxLength` (the source default argument is 255; call sites always used
here pass it explicitly or we pass 255). -/
def validateString (v : JSValue) (maxLength : Nat) : Option String :=
  match v with
  | .str s => some ⟨(jsTrim (s.data.filter (fun c => !isDangerousChar c))).take maxLength⟩
  | _ => none

/-- `validateNumber(value, min, max)` (source lines 19–24): `parseFloat`
then reject non-finite or out-of-range. -/
def validateNumber (v : JSValue) (min max : ℚ) : Option ℚ :=
  match jsParseFloat v with
  | none => none
  | some q => if q < min || q > max then none else some q

/-- `validateInteger(value, min, max)` (source lines 26–31): `parseInt`
then reject non-finite or out-of-range. -/
def validateInteger (v : JSValue) (min max : Int) : Option Int :=
  match jsParseInt v with
  | none => none
  | some n => if n < min || n > max then none else some n

/-- A calendar date as produced by parsing an ISO `YYYY-MM-DD` string in
UTC (as ECMAScript `new Date("YYYY-MM-DD")` does). `month` is 1-based
(January = 1); the 0-based `Date.prototype.getMonth` is `month - 1`. -/
structure JSDate where
  year : Nat
  month : Nat
  day : Nat
deriving DecidableEq

/-- Gregorian leap-year test. -/
def isLeapYear (y : Nat) : Bool :=
  (y % 4 == 0 && y % 100 != 0) || y % 400 == 0

/-- Days in a month of a given year. -/
def daysInMonth (y m : Nat) : Nat :=
  if m == 2 then (if isLeapYear y then 29 else 28)
  else if m == 4 || m == 6 || m == 9 || m == 11 then 30
  else 31

/-- Model of `new Date(s)` for strings in exact `YYYY-MM-DD` form (the
only form the pipeline feeds it): the ECMAScript ISO parser yields an
Invalid Date (`none`) when the month or day component is out of its
calendar range. The date is interpreted in UTC; the pipeline's use of
the local-time accessors `getFullYear`/`getMonth` is modelled as if the
environment clock were UTC. -/
def parseISODate (s : String) : Option JSDate :=
  match s.data with
  | [y1, y2, y3, y4, h1, m1, m2, h2, d1, d2] =>
    if isDigitChar y1 && isDigitChar y2 && isDigitChar y3 && isDigitChar y4 &&
       h1 == '-' && isDigitChar m1 && isDigitChar m2 &&
       h2 == '-' && isDigitChar d1 && isDigitChar d2 then
      let y := digitsVal [y1, y2, y3, y4]
      let m := digitsVal [m1, m2]
      let d := digitsVal [d1, d2]
      if 1 ≤ m && m ≤ 12 && 1 ≤ d && d ≤ daysInMonth y m then
        some ⟨y, m, d⟩
      else none
    else none
  | _ => none

/-- `validateDate(dateString)` (source lines 33–46): falsy or non-string
rejected; the `YYYY-MM-DD` regex and `new Date` round-trip are both
captured by `parseISODate`; finally the year must lie in [1900, 2030]. -/
def validateDate : JSValue → Option JSDate
  | .str s =>
    if s.data.isEmpty then none
    else
      match parseISODate s with
      | none => none
      | some d => if d.year < 1900 || d.year > 2030 then none else some d
  | _ => none

/-- The parts of a parsed `URL` object the validator inspects. -/
structure URLParts where
  protocol : String
  hostname : String
  href : String
deriving DecidableEq

/-- Characters allowed in a URL scheme after the leading letter. -/
def isSchemeChar (c : Char) : Bool :=
  c.isAlpha || isDigitChar c || c == '+' || c == '-' || c == '.'

/-- Model of `new URL(s)` for absolute hierarchical URLs of the shape
`scheme://host[:port][/path...]`: scheme and host are lower-cased, the
host ends at `/`, `:`, `?` or `#`, and `href` is the input itself
(normalisation of already-normal URLs is the identity). URLs without an
authority (e.g. `mailto:`) are modelled as parse failures; the validator
rejects them either way since their protocol is not `https:`. -/
def parseURLCore (l : List Char) : Option (String × String) :=
  let scheme := l.takeWhile isSchemeChar
  let rest := l.dropWhile isSchemeChar
  match scheme.head? with
  | none => none
  | some c0 =>
    if !c0.isAlpha then none
    else
      match rest with
      | ':' :: '/' :: '/' :: rest2 =>
        let host := rest2.takeWhile (fun c => !(c == '/' || c == ':' || c == '?' || c == '#'))
        if host.isEmpty then none
        else some (⟨scheme.map Char.toLower ++ [':']⟩, ⟨host.map Char.toLower⟩)
      | _ => none

/-- See `parseURLCore`; the `href` of a parsed URL is the input
itself. -/
def parseURL (s : String) : Option URLParts :=
  (parseURLCore s.data).map (fun p => ⟨p.1, p.2, s⟩)

/-- `String.prototype.endsWith` on Lean strings. -/
def jsEndsWith (s suffix : String) : Bool :=
  suffix.data.isSuffixOf s.data

/-- `validateURL(urlString)` (source lines 48–61): falsy or non-string
rejected; `new URL` parse failure rejected; otherwise accepted exactly
when the protocol is `https:` and the hostname ends with the character
run `sec.gov`, in which case `url.href` is returned. -/
def validateURL : JSValue → Option String
  | .str s =>
    if s.data.isEmpty then none
    else
      match parseURL s with
      | none => none
      | some u =>
        if u.protocol == "https:" && jsEndsWith u.hostname "sec.gov" then
          some u.href
        else none
  | _ => none

example : validateURL (.str "https://www.sec.gov/cgi-bin/browse") =
    some "https://www.sec.gov/cgi-bin/browse" := by decide
example : validateURL (.str "http://sec.gov/x") = none := by decide
example : validateURL (.str "https://example.com/x") = none := by decide
example : validateDate (.str "2023-12-30") = some ⟨2023, 12, 30⟩ := by decide
example : validateDate (.str "2023-02-31") = none := by decide
example : validateInteger (.num 320193) 1 9999999999 = some 320193 := by decide
example : validateNumber (.str "73100.5") 0 9007199254740991 = some (Rat.divInt 146201 2) := by decide
example : validateString (.str "  a<b>c  ") 255 = some "abc" := by decide

/-! ## Record sanitizers (source lines 63–122) -/

/-- A raw row of `Stocks.csv` after parsing (column name → untyped value). -/
structure StockRow where
  Symbol : JSValue
  CompanyName : JSValue
  CIK : JSValue
deriving DecidableEq

/-- A raw row of `Forms.csv`. -/
structure FormRow where
  id : JSValue
  FormName : JSValue
  CIK : JSValue
  ValueDate : JSValue
  FilingDate : JSValue
  FormURL : JSValue
deriving DecidableEq

/-- A raw row of `Tasks.csv`. -/
structure TaskRow where
  Form_id : JSValue
  TextListLen : JSValue
  TableIndex : JSValue
  SumDivider : JSValue
  JsonTable : JSValue
  ValueColumn : JSValue
  CCP : JSValue
  LTD : JSValue
deriving DecidableEq

/-- A sanitized company record. -/
structure StockRecord where
  symbol : String
  companyName : String
  cik : String
deriving DecidableEq

/-- A sanitized filing record. -/
structure FormRecord where
  id : String
  formName : String
  cik : String
  valueDate : String
  filingDate : String
  formURL : String
deriving DecidableEq

/-- A sanitized metric record. `sumDivider` is `some 1` when the raw
field is falsy (the source default) and `none` when the raw field is
truthy but fails validation. -/
structure TaskRecord where
  formId : String
  ccp : ℚ
  ltd : ℚ
  textListLen : Option Int
  tableIndex : Option Int
  sumDivider : Option ℚ
  jsonTable : Option Int
  valueColumn : Option Int
deriving DecidableEq

/-- JS falsiness of a validator result of string type: `null` or the
empty string. -/
def falsyStr : Option String → Bool
  | none => true
  | some s => s.data.isEmpty

/-- JS falsiness of a validator result of number type: `null` or `0`. -/
def falsyInt : Option Int → Bool
  | none => true
  | some n => n == 0

/-- Zero-pad a natural number's decimal rendering to a given width. -/
def padNat (width n : Nat) : String :=
  let s := toString n
  ⟨List.replicate (width - s.data.length) '0' ++ s.data⟩

/-- `Date.prototype.toISOString().split('T')[0]` on a parsed UTC date. -/
def toISODateString (d : JSDate) : String :=
  ⟨(padNat 4 d.year).data ++ '-' :: (padNat 2 d.month).data ++ '-' :: (padNat 2 d.day).data⟩

/-- `sanitizeStockData(row)` (source lines 64–76): all three fields are
required; the check is JS-falsy, so an empty (but valid) string is also
rejected. The CIK is rendered back to a decimal string. -/
def sanitizeStockData (row : StockRow) : Option StockRecord :=
  let symbol := validateString row.Symbol 10
  let companyName := validateString row.CompanyName 200
  let cik := validateInteger row.CIK 1 9999999999
  if falsyStr symbol || falsyStr companyName || falsyInt cik then none
  else
    match symbol, companyName, cik with
    | some sy, some cn, some ck => some ⟨sy, cn, toString ck⟩
    | _, _, _ => none

/-- `sanitizeFormData(row)` (source lines 78–96): all six fields are
required (JS-falsy check); dates are rendered back to `YYYY-MM-DD`. -/
def sanitizeFormData (row : FormRow) : Option FormRecord :=
  let id := validateInteger row.id 1 10000
  let formName := validateString row.FormName 100
  let cik := validateInteger row.CIK 1 9999999999
  let valueDate := validateDate row.ValueDate
  let filingDate := validateDate row.FilingDate
  let formURL := validateURL row.FormURL
  if falsyInt id || falsyStr formName || falsyInt cik ||
     valueDate.isNone || filingDate.isNone || falsyStr formURL then none
  else
    match id, formName, cik, valueDate, filingDate, formURL with
    | some i, some fn, some ck, some vd, some fd, some u =>
      some ⟨toString i, fn, toString ck, toISODateString vd, toISODateString fd, u⟩
    | _, _, _, _, _, _ => none

/-- `sanitizeTaskData(row)` (source lines 98–122): `formId`, `ccp` and
`ltd` are required and — unlike the other two sanitizers — compared
against `null` explicitly (`=== null`), so a legitimate `0` is accepted;
the auxiliary fields are validated when the raw value is truthy but
never cause rejection. -/
def sanitizeTaskData (row : TaskRow) : Option TaskRecord :=
  let formId := validateInteger row.Form_id 1 10000
  let ccp := validateNumber row.CCP 0 9007199254740991
  let ltd := validateNumber row.LTD 0 9007199254740991
  let textListLen := if jsTruthy row.TextListLen then validateInteger row.TextListLen 0 1000 else none
  let tableIndex := if jsTruthy row.TableIndex then validateInteger row.TableIndex 0 100 else none
  let sumDivider := if jsTruthy row.SumDivider then validateNumber row.SumDivider (Rat.divInt 1 1000) 10000 else some 1
  let jsonTable := if jsTruthy row.JsonTable then validateInteger row.JsonTable 0 1 else none
  let valueColumn := if jsTruthy row.ValueColumn then validateInteger row.ValueColumn 0 10 else none
  match formId, ccp, ltd with
  | some fi, some c, some l =>
    some ⟨toString fi, c, l, textListLen, tableIndex, sumDivider, jsonTable, valueColumn⟩
  | _, _, _ => none

/-! ## Join engine and aggregator (source lines 244–356) -/

/-- A denormalized combined record (source lines 293–307). -/
structure CombinedRecord where
  id : String
  company : String
  symbol : String
  cik : String
  year : Int
  quarter : Int
  date : JSDate
  dateString : String
  quarterLabel : String
  ccp : ℚ
  ltd : ℚ
  formName : String
  formURL : String
deriving DecidableEq

/-- Lookup in a JS `Map` built by inserting every element of `l` keyed
by `key` in order: `set` overwrites, so `get` returns the value of the
last element with the requested key. -/
def mapGet (key : α → String) (l : List α) (k : String) : Option α :=
  l.reverse.find? (fun x => key x == k)

/-- The epoch-millisecond comparison key of a calendar date: the
`(year, month, day)` encoding is strictly monotone in the actual UTC
timestamp, which is all the sort comparator observes. -/
def dateKey (d : JSDate) : Nat :=
  d.year * 10000 + d.month * 100 + d.day

/-- One iteration body of the join loop (source lines 275–307), without
the duplicate guard: resolve the filing, resolve the company, re-parse
the value date, derive year/quarter, bound-check the metrics, and build
the combined record. -/
def tryJoin (forms : List FormRecord) (stocks : List StockRecord) (task : TaskRecord) :
    Option CombinedRecord :=
  match mapGet FormRecord.id forms task.formId with
  | none => none
  | some form =>
    match mapGet StockRecord.cik stocks form.cik with
    | none => none
    | some stock =>
      match parseISODate form.valueDate with
      | none => none
      | some d =>
        let year : Int := d.year
        let month : Nat := d.month - 1
        let quarter : Int := ((month + 1) + 2) / 3
        if task.ccp < 0 || task.ltd < 0 then none
        else if task.ccp > 1000000000000 || task.ltd > 1000000000000 then none
        else
          some { id := task.formId, company := stock.companyName, symbol := stock.symbol,
                 cik := stock.cik, year := year, quarter := quarter, date := d,
                 dateString := form.valueDate,
                 quarterLabel := ⟨'Q' :: (toString quarter).data ++ ' ' :: (toString year).data⟩,
                 ccp := task.ccp, ltd := task.ltd, formName := form.formName,
                 formURL := form.formURL }

/-- One step of the join fold (source lines 269–308): the state is the
`processedFormIds` set (as a list) and the accumulated combined data.
The form id is marked processed at first encounter, before any of the
join checks. -/
def joinStep (forms : List FormRecord) (stocks : List StockRecord)
    (st : List String × List CombinedRecord) (task : TaskRecord) :
    List String × List CombinedRecord :=
  if st.1.contains task.formId then st
  else
    let processed := task.formId :: st.1
    match tryJoin forms stocks task with
    | none => (processed, st.2)
    | some r => (processed, st.2 ++ [r])

/-- The full join loop: `combinedData` after the `forEach` over the
sanitized tasks. -/
def combineData (forms : List FormRecord) (stocks : List StockRecord)
    (tasks : List TaskRecord) : List CombinedRecord :=
  (tasks.foldl (joinStep forms stocks) ([], [])).2

/-- The date order on combined records observed by the sort comparator
`new Date(a.date) - new Date(b.date)`. -/
def dateLE (a b : CombinedRecord) : Prop :=
  dateKey a.date ≤ dateKey b.date

instance : DecidableRel dateLE := fun _ _ => Nat.decLe _ _

instance : IsTotal CombinedRecord dateLE := ⟨fun _ _ => Nat.le_total _ _⟩

instance : IsTrans CombinedRecord dateLE := ⟨fun _ _ _ => Nat.le_trans⟩

/-- The stable ascending sort by date (source line 315 and 421/424):
ECMAScript `sort` with comparator `new Date(a.date) - new Date(b.date)`
is a stable sort whose order depends only on the sign of the timestamp
difference; any stable sort computes the same list, and
`List.insertionSort` is one. -/
def sortByDate (l : List CombinedRecord) : List CombinedRecord :=
  l.insertionSort dateLE

/-- Insert one record into the insertion-ordered grouped structure
(source lines 319–324): append to the existing group of its company, or
append a fresh singleton group at the end. -/
def pushRecord (gd : List (String × List CombinedRecord)) (item : CombinedRecord) :
    List (String × List CombinedRecord) :=
  match gd with
  | [] => [(item.company, [item])]
  | (k, grp) :: rest =>
    if k = item.company then (k, grp ++ [item]) :: rest
    else (k, grp) :: pushRecord rest item

/-- `groupedData` built from the date-sorted combined data. -/
def groupByCompany (l : List CombinedRecord) : List (String × List CombinedRecord) :=
  l.foldl pushRecord []

/-- UTF-16-style lexicographic order on strings, as the ECMAScript
default `sort()` comparator orders them (identical to code-point order
on the strings occurring here). -/
def strLe (a b : String) : Bool :=
  go a.data b.data
where
  go : List Char → List Char → Bool
    | [], _ => true
    | _ :: _, [] => false
    | c :: cs, d :: ds =>
      if c.toNat < d.toNat then true
      else if d.toNat < c.toNat then false
      else go cs ds

/-- Keep the first occurrence of every element (the observable content
of `[...new Set(l)]`). -/
def dedupKeepFirst (l : List Int) : List Int :=
  go [] l
where
  go (seen : List Int) : List Int → List Int
    | [] => []
    | x :: xs => if seen.contains x then go seen xs else x :: go (x :: seen) xs

/-- The dataset returned by `processSecureFinancialData` (source lines
335–356). The `stats` block is reporting metadata echoing list lengths
and is not modelled. -/
structure Dataset where
  combinedData : List CombinedRecord
  groupedData : List (String × List CombinedRecord)
  companies : List String
  dateRangeMin : Int
  dateRangeMax : Int
deriving DecidableEq

/-- The synchronous core of `processSecureFinancialData` (source lines
244–356), starting from the sanitized record lists: size limits, join,
emptiness check, date sort, company grouping, sorted company and year
sets. -/
def processSanitizedData (stocks : List StockRecord) (forms : List FormRecord)
    (tasks : List TaskRecord) : Except String Dataset :=
  if stocks.length > 1000 then .error "Too many stock records"
  else if forms.length > 5000 then .error "Too many form records"
  else if tasks.length > 10000 then .error "Too many task records"
  else
    let combined := combineData forms stocks tasks
    if combined.length = 0 then .error "No valid data after processing and validation"
    else
      let sorted := sortByDate combined
      let grouped := groupByCompany sorted
      let companies := (grouped.map Prod.fst).insertionSort (fun a b => strLe a b = true)
      let years := (dedupKeepFirst (sorted.map CombinedRecord.year)).insertionSort
        (fun a b => a ≤ b)
      if companies.length = 0 || years.length = 0 then
        .error "No companies or years found in processed data"
      else
        .ok { combinedData := sorted, groupedData := grouped, companies := companies,
              dateRangeMin := (years.min?).getD 0,
              dateRangeMax := (years.max?).getD 0 }

/-- `processSecureFinancialData` (source lines 216–362) after the three
bounded loads have delivered their raw rows: sanitize each table,
dropping rejected rows, then run the synchronous core. The network
loading itself (lines 221–225) is I/O and outside this model. -/
def processSecureFinancialData (stockRows : List StockRow) (formRows : List FormRow)
    (taskRows : List TaskRow) : Except String Dataset :=
  processSanitizedData (stockRows.filterMap sanitizeStockData)
    (formRows.filterMap sanitizeFormData) (taskRows.filterMap sanitizeTaskData)

/-! ## Filter engine (source lines 364–425) -/

/-- One entry of the company selection after `validateString` and the
`filter(Boolean)` step: `none` both for non-string entries and for
entries that sanitize to the empty (falsy) string. -/
def sanitizeCompanyEntry (v : JSValue) : Option String :=
  match validateString v 200 with
  | none => none
  | some s => if s.data.isEmpty then none else some s

/-- The sanitized company selection (source lines 390–392): validate
each entry as a string of at most 200 characters, then `filter(Boolean)`
drops both `null` results (non-string entries) and empty strings. -/
def selectedOf (sel : List JSValue) : List String :=
  sel.filterMap sanitizeCompanyEntry

/-- The per-record inclusion test of the filter (source lines 399–412):
year within range, with the quarter bounds applied only at the boundary
years. -/
def matchesRange (vsy vey vsq veq : Int) (item : CombinedRecord) : Bool :=
  let isInYearRange := decide (item.year ≥ vsy) && decide (item.year ≤ vey)
  if item.year = vsy ∧ item.year = vey then
    isInYearRange && decide (item.quarter ≥ vsq) && decide (item.quarter ≤ veq)
  else if item.year = vsy then
    isInYearRange && decide (item.quarter ≥ vsq)
  else if item.year = vey then
    isInYearRange && decide (item.quarter ≤ veq)
  else isInYearRange

/-- The pre-cap filtered list (source lines 394–416): traverse the
grouped structure in key order, keep the groups of selected companies
(an empty sanitized selection keeps every group), and within each kept
group keep the records matching the range. -/
def filteredOf (gd : List (String × List CombinedRecord)) (selected : List String)
    (vsy vey vsq veq : Int) : List CombinedRecord :=
  (gd.filter (fun kv => selected.isEmpty || selected.contains kv.1)).flatMap
    (fun kv => kv.2.filter (matchesRange vsy vey vsq veq))

/-- `secureFilterData(groupedData, selectedCompanies, startYear,
endYear, startQuarter, endQuarter)` (source lines 365–425). The
`Array.isArray` check is discharged by the type of `sel`. The source
tests the four validated parameters for JS falsiness (`!valid...`),
which holds when validation returned `null` or the value `0`; `0` is
outside every parameter's validation range, but the test is modelled
verbatim. -/
def secureFilterData (gd : List (String × List CombinedRecord)) (sel : List JSValue)
    (startYear endYear startQuarter endQuarter : JSValue) :
    Except String (List CombinedRecord) :=
  match validateInteger startYear 1900 2030, validateInteger endYear 1900 2030,
        validateInteger startQuarter 1 4, validateInteger endQuarter 1 4 with
  | some vsy, some vey, some vsq, some veq =>
    if vsy = 0 ∨ vey = 0 ∨ vsq = 0 ∨ veq = 0 then .error "Invalid filter parameters"
    else if vsy > vey then .error "Start year cannot be after end year"
    else if sel.length > 50 then .error "Too many companies selected"
    else
      let filtered := filteredOf gd (selectedOf sel) vsy vey vsq veq
      if filtered.length > 5000 then .ok (sortByDate (filtered.take 5000))
      else .ok (sortByDate filtered)
  | _, _, _, _ => .error "Invalid filter parameters"

/-- One entry of the quarter axis (source lines 447–452). -/
structure QuarterOption where
  value : String
  label : String
  year : Int
  quarter : Int
deriving DecidableEq

/-- `generateSecureQuarterOptions(minYear, maxYear)` (source lines
428–457). -/
def generateSecureQuarterOptions (minYear maxYear : JSValue) :
    Except String (List QuarterOption) :=
  match validateInteger minYear 1900 2030, validateInteger maxYear 1900 2030 with
  | some vmin, some vmax =>
    if vmin = 0 ∨ vmax = 0 then .error "Invalid year range"
    else if vmin > vmax then .error "Invalid year range: min > max"
    else if vmax - vmin > 50 then .error "Year range too large"
    else
      .ok ((List.range (vmax - vmin).toNat.succ).flatMap (fun i =>
        let year := vmin + i
        (List.range 4).map (fun j =>
          let quarter : Int := j + 1
          { value := ⟨(toString year).data ++ '-' :: 'Q' :: (toString quarter).data⟩,
            label := ⟨'Q' :: (toString quarter).data ++ ' ' :: (toString year).data⟩,
            year := year, quarter := quarter })))
  | _, _ => .error "Invalid year range"

/-! ## Concrete fixtures used by witnesses and counterexamples -/

/-- A Q4-2020 record of company `A`. -/
def recQ4 : CombinedRecord :=
  { id := "1", company := "A", symbol := "A", cik := "1", year := 2020, quarter := 4,
    date := ⟨2020, 11, 15⟩, dateString := "2020-11-15", quarterLabel := "Q4 2020",
    ccp := 1, ltd := 2, formName := "f", formURL := "https://sec.gov/x" }

/-- A one-company grouped dataset holding only `recQ4`. -/
def gdQ4 : List (String × List CombinedRecord) := [("A", [recQ4])]

/-- A record of a company whose name contains a character stripped by
`validateString`. -/
def recC6 : CombinedRecord :=
  { id := "2", company := "A<B", symbol := "AB", cik := "2", year := 2020, quarter := 2,
    date := ⟨2020, 5, 15⟩, dateString := "2020-05-15", quarterLabel := "Q2 2020",
    ccp := 1, ltd := 2, formName := "f", formURL := "https://sec.gov/x" }

/-- A grouped dataset keyed by the `validateString`-unstable company
name `A<B`. -/
def gdC6 : List (String × List CombinedRecord) := [("A<B", [recC6])]

/-- A late-dated (2025) record of company `A`. -/
def recA2 : CombinedRecord :=
  { id := "4", company := "A", symbol := "A", cik := "1", year := 2025, quarter := 1,
    date := ⟨2025, 1, 10⟩, dateString := "2025-01-10", quarterLabel := "Q1 2025",
    ccp := 1, ltd := 2, formName := "f", formURL := "https://sec.gov/x" }

/-- An early-dated (2020) record of company `B`. -/
def recB2 : CombinedRecord :=
  { id := "5", company := "B", symbol := "B", cik := "2", year := 2020, quarter := 1,
    date := ⟨2020, 1, 10⟩, dateString := "2020-01-10", quarterLabel := "Q1 2020",
    ccp := 1, ltd := 2, formName := "g", formURL := "https://sec.gov/y" }

/-- A grouped dataset with 5001 matching records: company `A` first in
traversal order with one late record, then company `B` with 5000 early
records. -/
def gdC2 : List (String × List CombinedRecord) :=
  [("A", [recA2]), ("B", List.replicate 5000 recB2)]

/-- Keep only the first task per `formId` (the specification's
"first-seen wins" reading, used to relate the join loop to itself). -/
def dedupByFormIdGo (seen : List String) : List TaskRecord → List TaskRecord
  | [] => []
  | t :: ts =>
    if seen.contains t.formId then dedupByFormIdGo seen ts
    else t :: dedupByFormIdGo (t.formId :: seen) ts

/-- See `dedupByFormIdGo`. -/
def dedupByFormId (tasks : List TaskRecord) : List TaskRecord :=
  dedupByFormIdGo [] tasks

/-- The sanitized company of the spec's three-row scenario. -/
def stockW : StockRecord := ⟨"AAPL", "Apple", "320193"⟩

/-- The sanitized filing of the spec's three-row scenario. -/
def formW : FormRecord := ⟨"1", "10-K", "320193", "2023-12-30", "2023-12-30", "https://sec.gov/x"⟩

/-- A sanitized metric row that links to `formW`. -/
def taskW1 : TaskRecord := ⟨"1", 73100, 106042, none, none, some 1, none, none⟩

/-- A sanitized metric row whose `formId` matches no filing. -/
def taskW9 : TaskRecord := ⟨"9", 1, 1, none, none, some 1, none, none⟩

/-- The combined record the join produces from `taskW1`, `formW` and
`stockW`. -/
def recW : CombinedRecord :=
  { id := "1", company := "Apple", symbol := "AAPL", cik := "320193", year := 2023,
    quarter := 4, date := ⟨2023, 12, 30⟩, dateString := "2023-12-30",
    quarterLabel := "Q4 2023", ccp := 73100, ltd := 106042, formName := "10-K",
    formURL := "https://sec.gov/x" }

/-- The raw Stocks row of the spec's three-row scenario. -/
def stockRowW : StockRow := ⟨.str "AAPL", .str "Apple", .num 320193⟩

/-- The raw Forms row of the spec's three-row scenario. -/
def formRowW : FormRow :=
  ⟨.num 1, .str "10-K", .num 320193, .str "2023-12-30", .str "2023-12-30",
   .str "https://sec.gov/x"⟩

/-- The raw Tasks row of the spec's three-row scenario. -/
def taskRowW : TaskRow :=
  ⟨.num 1, .undef, .undef, .undef, .undef, .undef, .num 73100, .num 106042⟩

/-- The dataset the pipeline produces from the three scenario rows. -/
def dsW : Dataset :=
  { combinedData := [recW], groupedData := [("Apple", [recW])], companies := ["Apple"],
    dateRangeMin := 2023, dateRangeMax := 2023 }

/-! ## Shared lemmas about the validators -/

lemma validateString_some_length {v : JSValue} {ml : Nat} {s : String}
    (h : validateString v ml = some s) : s.data.length ≤ ml := by
  unfold validateString at h
  cases v <;> simp at h
  subst h
  simp [List.length_take_le ml]

lemma validateNumber_some_bounds {v : JSValue} {mn mx q : ℚ}
    (h : validateNumber v mn mx = some q) : mn ≤ q ∧ q ≤ mx := by
  unfold validateNumber at h
  rcases hp : jsParseFloat v with _ | q0 <;> rw [hp] at h
  · simp at h
  · dsimp only at h
    split at h
    · simp at h
    · rename_i hcond
      cases h
      simp only [Bool.or_eq_true, decide_eq_true_eq, not_or, not_lt] at hcond
      exact ⟨hcond.1, hcond.2⟩

lemma validateInteger_some_bounds {v : JSValue} {mn mx n : Int}
    (h : validateInteger v mn mx = some n) : mn ≤ n ∧ n ≤ mx := by
  unfold validateInteger at h
  rcases hp : jsParseInt v with _ | n0 <;> rw [hp] at h
  · simp at h
  · dsimp only at h
    split at h
    · simp at h
    · rename_i hcond
      cases h
      simp only [Bool.or_eq_true, decide_eq_true_eq, not_or, not_lt] at hcond
      exact ⟨hcond.1, hcond.2⟩

lemma validateDate_some_year {v : JSValue} {d : JSDate}
    (h : validateDate v = some d) : 1900 ≤ d.year ∧ d.year ≤ 2030 := by
  unfold validateDate at h
  cases v with
  | str s =>
    dsimp only at h
    split at h
    · simp at h
    · rcases hp : parseISODate s with _ | d0 <;> rw [hp] at h
      · simp at h
      · dsimp only at h
        split at h
        · simp at h
        · rename_i hcond
          cases h
          simp only [Bool.or_eq_true, decide_eq_true_eq, not_or, not_lt] at hcond
          omega
  | num q => simp at h
  | nan => simp at h
  | nullv => simp at h
  | undef => simp at h
  | boolv b => simp at h

lemma parseURL_href {s : String} {u : URLParts} (h : parseURL s = some u) : u.href = s := by
  unfold parseURL at h
  rcases hc : parseURLCore s.data with _ | p <;> rw [hc] at h
  · simp at h
  · rw [show ((some p).map (fun p => (⟨p.1, p.2, s⟩ : URLParts))) =
        some ⟨p.1, p.2, s⟩ from rfl] at h
    cases h
    rfl

lemma validateURL_some_spec {v : JSValue} {href : String}
    (h : validateURL v = some href) :
    ∃ u : URLParts, parseURL href = some u ∧ u.protocol = "https:" ∧
      jsEndsWith u.hostname "sec.gov" = true := by
  unfold validateURL at h
  cases v with
  | str s =>
    dsimp only at h
    split at h
    · simp at h
    · rcases hp : parseURL s with _ | u <;> rw [hp] at h
      · simp at h
      · dsimp only at h
        split at h
        · rename_i hcond
          cases h
          simp only [Bool.and_eq_true, beq_iff_eq] at hcond
          have hhref := parseURL_href hp
          exact ⟨u, by rw [hhref]; exact hp, hcond.1, hcond.2⟩
        · simp at h
  | num q => simp at h
  | nan => simp at h
  | nullv => simp at h
  | undef => simp at h
  | boolv b => simp at h

/-! ## Claim C8 — validator totality and bounds -/

/-- C8: every Field Validator is total — in this embedding all five are
total Lean functions on the whole `JSValue` domain (including `null`,
wrong types, the empty string and boundary values) returning an
`Option`, and whenever the result is not the invalid sentinel `none` it
satisfies the stated bounds: the string's length is at most `maxLength`,
the number/integer lies in `[min, max]`, the date's year lies in
`[1900, 2030]`, and the URL has scheme `https` with a hostname ending in
the registry suffix. -/
theorem validators_total_and_in_bounds (v : JSValue) (ml : Nat) (mn mx : ℚ)
    (mni mxi : Int) :
    (∀ s : String, validateString v ml = some s → s.data.length ≤ ml) ∧
    (∀ q : ℚ, validateNumber v mn mx = some q → mn ≤ q ∧ q ≤ mx) ∧
    (∀ n : Int, validateInteger v mni mxi = some n → mni ≤ n ∧ n ≤ mxi) ∧
    (∀ d : JSDate, validateDate v = some d → 1900 ≤ d.year ∧ d.year ≤ 2030) ∧
    (∀ href : String, validateURL v = some href →
      ∃ u : URLParts, parseURL href = some u ∧ u.protocol = "https:" ∧
        jsEndsWith u.hostname "sec.gov" = true) :=
  ⟨fun _ h => validateString_some_length h,
   fun _ h => validateNumber_some_bounds h,
   fun _ h => validateInteger_some_bounds h,
   fun _ h => validateDate_some_year h,
   fun _ h => validateURL_some_spec h⟩

/-- Witness for C8 at concrete inputs: the integer validator's output at
a boundary value is in bounds and the date validator's year bound holds
at a parsed date. -/
theorem validators_total_and_in_bounds_witness :
    ((1900 : Int) ≤ 2030 ∧ (2030 : Int) ≤ 2030) ∧
    (1900 ≤ (JSDate.mk 2023 12 30).year ∧ (JSDate.mk 2023 12 30).year ≤ 2030) :=
  ⟨(validators_total_and_in_bounds (.num 2030) 255 0 1 1900 2030).2.2.1 2030 (by decide),
   (validators_total_and_in_bounds (.str "2023-12-30") 255 0 1 1900 2030).2.2.2.1
     ⟨2023, 12, 30⟩ (by decide)⟩

/-! ## Claim C1 — validateURL and lookalike domains -/

/-- C1: the claim states that hostnames of unrelated lookalike domains
whose name merely ends with the registry suffix (such as `evilsec.gov`)
are rejected. The code checks `url.hostname.endsWith('sec.gov')`
without requiring a preceding dot or an exact match, so the lookalike
host `evilsec.gov` is in fact accepted: this theorem evaluates the
embedded `validateURL` at the failing input. The code's own comment
(`Only allow HTTPS URLs from sec.gov`, line 53) states the claimed
intent, so this is a bug in the code, not in the claim. -/
theorem validateURL_accepts_lookalike :
    validateURL (.str "https://evilsec.gov/x") = some "https://evilsec.gov/x" := by
  decide

/-! ## Claim C4 — task sanitizer accepts zero metrics -/

/-- C4: for every task row whose `Form_id` validates and whose `CCP` and
`LTD` validate against `[0, Number.MAX_SAFE_INTEGER]`, the sanitizer
returns a record carrying exactly those values — regardless of the five
auxiliary fields, which are quantified over arbitrarily here and hence
can never cause rejection. Because the source compares the three
required values against `null` with `===` (not truthiness), `ccp = 0`
and `ltd = 0` are accepted. -/
theorem sanitizeTaskData_accepts_valid_rows (row : TaskRow) (fi : Int) (c l : ℚ)
    (hfi : validateInteger row.Form_id 1 10000 = some fi)
    (hc : validateNumber row.CCP 0 9007199254740991 = some c)
    (hl : validateNumber row.LTD 0 9007199254740991 = some l) :
    ∃ t : TaskRecord, sanitizeTaskData row = some t ∧
      t.formId = toString fi ∧ t.ccp = c ∧ t.ltd = l := by
  have h : sanitizeTaskData row = some
      ⟨toString fi, c, l,
       (if jsTruthy row.TextListLen then validateInteger row.TextListLen 0 1000 else none),
       (if jsTruthy row.TableIndex then validateInteger row.TableIndex 0 100 else none),
       (if jsTruthy row.SumDivider then
          validateNumber row.SumDivider (Rat.divInt 1 1000) 10000 else some 1),
       (if jsTruthy row.JsonTable then validateInteger row.JsonTable 0 1 else none),
       (if jsTruthy row.ValueColumn then validateInteger row.ValueColumn 0 10 else none)⟩ := by
    simp only [sanitizeTaskData, hfi, hc, hl]
  exact ⟨_, h, rfl, rfl, rfl⟩

/-- Witness for C4: a row with `ccp = 0`, `ltd = 0` and a valid
`Form_id` (auxiliary fields absent) is accepted with those exact
values. -/
theorem sanitizeTaskData_accepts_valid_rows_witness :
    ∃ t : TaskRecord,
      sanitizeTaskData ⟨.num 1, .undef, .undef, .undef, .undef, .undef, .num 0, .num 0⟩ =
        some t ∧ t.formId = toString (1 : Int) ∧ t.ccp = 0 ∧ t.ltd = 0 :=
  sanitizeTaskData_accepts_valid_rows
    ⟨.num 1, .undef, .undef, .undef, .undef, .undef, .num 0, .num 0⟩ 1 0 0
    (by decide) (by decide) (by decide)

/-! ## Shared lemmas about the filter engine -/

/-- When the parameters validate, the bound checks pass and the
selection is within the 50-entry cap, `secureFilterData` reaches the
filtering stage. -/
lemma secureFilterData_ok {gd : List (String × List CombinedRecord)} {sel : List JSValue}
    {sy ey sq eq : JSValue} {vsy vey vsq veq : Int}
    (h1 : validateInteger sy 1900 2030 = some vsy)
    (h2 : validateInteger ey 1900 2030 = some vey)
    (h3 : validateInteger sq 1 4 = some vsq)
    (h4 : validateInteger eq 1 4 = some veq)
    (hle : vsy ≤ vey) (hlen : sel.length ≤ 50) :
    secureFilterData gd sel sy ey sq eq =
      if (filteredOf gd (selectedOf sel) vsy vey vsq veq).length > 5000 then
        .ok (sortByDate ((filteredOf gd (selectedOf sel) vsy vey vsq veq).take 5000))
      else .ok (sortByDate (filteredOf gd (selectedOf sel) vsy vey vsq veq)) := by
  obtain ⟨hb1, -⟩ := validateInteger_some_bounds h1
  obtain ⟨hb2, -⟩ := validateInteger_some_bounds h2
  obtain ⟨hb3, -⟩ := validateInteger_some_bounds h3
  obtain ⟨hb4, -⟩ := validateInteger_some_bounds h4
  unfold secureFilterData
  rw [h1, h2, h3, h4]
  dsimp only
  rw [if_neg (by omega), if_neg (by omega), if_neg (by omega)]

/-- With an empty sanitized selection every group is traversed. -/
lemma filteredOf_nil (gd : List (String × List CombinedRecord)) (vsy vey vsq veq : Int) :
    filteredOf gd [] vsy vey vsq veq =
      gd.flatMap (fun kv => kv.2.filter (matchesRange vsy vey vsq veq)) := by
  unfold filteredOf
  congr 1
  exact List.filter_eq_self.mpr (fun kv _ => rfl)

lemma mem_filteredOf_nil {gd : List (String × List CombinedRecord)}
    {vsy vey vsq veq : Int} {r : CombinedRecord} :
    r ∈ filteredOf gd [] vsy vey vsq veq ↔
      ∃ kv ∈ gd, r ∈ kv.2 ∧ matchesRange vsy vey vsq veq r = true := by
  rw [filteredOf_nil]
  simp only [List.mem_flatMap, List.mem_filter]

/-- The inclusion test of the filter, characterised: year within range
with quarter bounds applied only at the boundary years. -/
lemma matchesRange_iff (vsy vey vsq veq : Int) (r : CombinedRecord) :
    matchesRange vsy vey vsq veq r = true ↔
      (vsy ≤ r.year ∧ r.year ≤ vey ∧
       (r.year = vsy → vsq ≤ r.quarter) ∧ (r.year = vey → r.quarter ≤ veq)) := by
  unfold matchesRange
  split_ifs with hA hB hC <;>
    simp only [Bool.and_eq_true, decide_eq_true_eq, ge_iff_le] <;> omega

/-! ## Claim C3 — range semantics of the filter -/

/-- C3: for every record present in the grouped data and every
validating parameter quadruple (with the whole-company selection, and
under the 5000-record cap), the record is included in the filter output
iff its year lies in `[startYear, endYear]`, with the quarter bounds
constraining only the boundary years; in particular with all four
bounds at 2020/Q4 exactly the Q4-2020 records are returned. -/
theorem secureFilterData_range_semantics (gd : List (String × List CombinedRecord))
    (sy ey sq eq : JSValue) (vsy vey vsq veq : Int) (r : CombinedRecord)
    (h1 : validateInteger sy 1900 2030 = some vsy)
    (h2 : validateInteger ey 1900 2030 = some vey)
    (h3 : validateInteger sq 1 4 = some vsq)
    (h4 : validateInteger eq 1 4 = some veq)
    (hle : vsy ≤ vey)
    (hcap : (filteredOf gd [] vsy vey vsq veq).length ≤ 5000)
    (hr : ∃ kv ∈ gd, r ∈ kv.2) :
    ∃ res, secureFilterData gd [] sy ey sq eq = .ok res ∧
      (r ∈ res ↔ (vsy ≤ r.year ∧ r.year ≤ vey ∧
        (r.year = vsy → vsq ≤ r.quarter) ∧ (r.year = vey → r.quarter ≤ veq))) ∧
      (vsy = 2020 → vey = 2020 → vsq = 4 → veq = 4 →
        (r ∈ res ↔ (r.year = 2020 ∧ r.quarter = 4))) := by
  rw [secureFilterData_ok h1 h2 h3 h4 hle (by simp)]
  have hsel : selectedOf ([] : List JSValue) = [] := rfl
  rw [hsel, if_neg (by omega)]
  refine ⟨_, rfl, ?_⟩
  have hmem : r ∈ sortByDate (filteredOf gd [] vsy vey vsq veq) ↔
      r ∈ filteredOf gd [] vsy vey vsq veq :=
    (List.perm_insertionSort dateLE _).mem_iff
  have hiff : r ∈ sortByDate (filteredOf gd [] vsy vey vsq veq) ↔
      (vsy ≤ r.year ∧ r.year ≤ vey ∧
        (r.year = vsy → vsq ≤ r.quarter) ∧ (r.year = vey → r.quarter ≤ veq)) := by
    rw [hmem, mem_filteredOf_nil]
    constructor
    · rintro ⟨kv, hkv, hrkv, hm⟩
      exact (matchesRange_iff vsy vey vsq veq r).mp hm
    · intro hpred
      obtain ⟨kv, hkv, hrkv⟩ := hr
      exact ⟨kv, hkv, hrkv, (matchesRange_iff vsy vey vsq veq r).mpr hpred⟩
  refine ⟨hiff, ?_⟩
  rintro rfl rfl rfl rfl
  rw [hiff]
  constructor <;> intro h <;> omega

/-- Witness for C3 on a one-record dataset at the quarter-boundary
parameters 2020/Q4–2020/Q4. -/
theorem secureFilterData_range_semantics_witness :
    ∃ res,
      secureFilterData gdQ4 [] (.num 2020) (.num 2020) (.num 4) (.num 4) = .ok res ∧
      (recQ4 ∈ res ↔ (2020 ≤ recQ4.year ∧ recQ4.year ≤ 2020 ∧
        (recQ4.year = 2020 → 4 ≤ recQ4.quarter) ∧ (recQ4.year = 2020 → recQ4.quarter ≤ 4))) ∧
      ((2020 : Int) = 2020 → (2020 : Int) = 2020 → (4 : Int) = 4 → (4 : Int) = 4 →
        (recQ4 ∈ res ↔ (recQ4.year = 2020 ∧ recQ4.quarter = 4))) :=
  secureFilterData_range_semantics gdQ4 _ _ _ _ 2020 2020 4 4 recQ4
    (by decide) (by decide) (by decide) (by decide) (by decide) (by decide)
    ⟨("A", [recQ4]), by simp [gdQ4], by simp⟩

example : secureFilterData gdQ4 [] (.num 2020) (.num 2020) (.num 4) (.num 4) =
    .ok [recQ4] := by decide

/-! ## Claim C10 — invalid selection entries are dropped, never fatal -/

/-- C10: with validating year/quarter parameters and a selection of at
most 50 entries, `secureFilterData` never fails: it returns a result;
an entry that is not a string, or whose sanitized form is the empty
string, is silently dropped from the selection; and when every entry is
dropped the call behaves exactly as the match-all empty selection. -/
theorem secureFilterData_drops_invalid_selection_entries
    (gd : List (String × List CombinedRecord)) (sel : List JSValue)
    (sy ey sq eq : JSValue) (vsy vey vsq veq : Int)
    (h1 : validateInteger sy 1900 2030 = some vsy)
    (h2 : validateInteger ey 1900 2030 = some vey)
    (h3 : validateInteger sq 1 4 = some vsq)
    (h4 : validateInteger eq 1 4 = some veq)
    (hle : vsy ≤ vey) (hlen : sel.length ≤ 50) :
    (∃ res, secureFilterData gd sel sy ey sq eq = .ok res) ∧
    (∀ v : JSValue, ∀ rest : List JSValue,
      (validateString v 200 = none ∨ validateString v 200 = some "") →
      selectedOf (v :: rest) = selectedOf rest) ∧
    (selectedOf sel = [] →
      secureFilterData gd sel sy ey sq eq = secureFilterData gd [] sy ey sq eq) := by
  refine ⟨?_, ?_, ?_⟩
  · rw [secureFilterData_ok h1 h2 h3 h4 hle hlen]
    split
    · exact ⟨_, rfl⟩
    · exact ⟨_, rfl⟩
  · intro v rest hv
    have hnone : sanitizeCompanyEntry v = none := by
      unfold sanitizeCompanyEntry
      rcases hv with hv | hv <;> rw [hv]
      rfl
    unfold selectedOf
    rw [List.filterMap_cons, hnone]
  · intro hsel
    rw [secureFilterData_ok h1 h2 h3 h4 hle hlen,
        secureFilterData_ok h1 h2 h3 h4 hle (by simp), hsel]
    rfl

/-- Witness for C10: a selection consisting of a number and a
whitespace-only string is fully dropped, the call succeeds and agrees
with the empty-selection call. -/
theorem secureFilterData_drops_invalid_selection_entries_witness :
    (∃ res, secureFilterData gdQ4 [.num 7, .str "  "]
        (.num 2020) (.num 2020) (.num 1) (.num 4) = .ok res) ∧
    (secureFilterData gdQ4 [.num 7, .str "  "] (.num 2020) (.num 2020) (.num 1) (.num 4) =
      secureFilterData gdQ4 [] (.num 2020) (.num 2020) (.num 1) (.num 4)) :=
  ⟨(secureFilterData_drops_invalid_selection_entries gdQ4 [.num 7, .str "  "] _ _ _ _
      2020 2020 1 4 (by decide) (by decide) (by decide) (by decide) (by decide)
      (by decide)).1,
   (secureFilterData_drops_invalid_selection_entries gdQ4 [.num 7, .str "  "] _ _ _ _
      2020 2020 1 4 (by decide) (by decide) (by decide) (by decide) (by decide)
      (by decide)).2.2 (by decide)⟩

/-! ## Claim C6 — empty selection versus full selection -/

/-- Selecting every key of the grouped structure filters no group. -/
lemma filteredOf_full_keys (gd : List (String × List CombinedRecord))
    (vsy vey vsq veq : Int) :
    filteredOf gd (gd.map Prod.fst) vsy vey vsq veq =
      filteredOf gd [] vsy vey vsq veq := by
  rw [filteredOf_nil]
  unfold filteredOf
  congr 1
  apply List.filter_eq_self.mpr
  intro kv hkv
  have hmem : kv.1 ∈ gd.map Prod.fst := List.mem_map_of_mem Prod.fst hkv
  simp only [Bool.or_eq_true]
  right
  simpa using hmem

/-- C6 counterexample: the claim quantifies over every `groupedData`,
but on a grouped structure whose company key contains a character that
`validateString` strips (here `A<B`), filtering with the full company
list sanitizes the selection to `AB`, which matches no group, while the
empty selection matches all — the two calls return different results at
this concrete input. -/
theorem secureFilterData_full_selection_differs :
    secureFilterData gdC6 [] (.num 1900) (.num 2030) (.num 1) (.num 4) ≠
      secureFilterData gdC6 (gdC6.map (fun p => JSValue.str p.1))
        (.num 1900) (.num 2030) (.num 1) (.num 4) := by
  decide

/-- C6 (amended): for every groupedData with at most 50 companies whose
keys are non-empty and invariant under `validateString` (as holds for
every structure the pipeline itself produces), filtering with the full
company list returns exactly the same result as filtering with the
empty selection. -/
theorem secureFilterData_empty_selection_matches_full
    (gd : List (String × List CombinedRecord)) (sy ey sq eq : JSValue)
    (hlen : gd.length ≤ 50)
    (hkeys : ∀ k ∈ gd.map Prod.fst,
      validateString (.str k) 200 = some k ∧ k.data ≠ []) :
    secureFilterData gd (gd.map (fun p => JSValue.str p.1)) sy ey sq eq =
      secureFilterData gd [] sy ey sq eq := by
  have hsel : selectedOf (gd.map (fun p => JSValue.str p.1)) = gd.map Prod.fst := by
    clear hlen
    induction gd with
    | nil => rfl
    | cons kv rest ih =>
      obtain ⟨hk, hne⟩ := hkeys kv.1 (by simp)
      have hentry : sanitizeCompanyEntry (JSValue.str kv.1) = some kv.1 := by
        unfold sanitizeCompanyEntry
        rw [hk]
        simp [hne]
      unfold selectedOf at ih ⊢
      simp only [List.map_cons, List.filterMap_cons, hentry]
      rw [ih (fun k hk2 => hkeys k (by simp [hk2]))]
  unfold secureFilterData
  rcases hA : validateInteger sy 1900 2030 with _ | vsy
  · rfl
  rcases hB : validateInteger ey 1900 2030 with _ | vey
  · rfl
  rcases hC : validateInteger sq 1 4 with _ | vsq
  · rfl
  rcases hD : validateInteger eq 1 4 with _ | veq
  · rfl
  dsimp only
  rw [hsel]
  by_cases hc1 : vsy = 0 ∨ vey = 0 ∨ vsq = 0 ∨ veq = 0
  · rw [if_pos hc1, if_pos hc1]
  rw [if_neg hc1, if_neg hc1]
  by_cases hc2 : vsy > vey
  · rw [if_pos hc2, if_pos hc2]
  rw [if_neg hc2, if_neg hc2]
  rw [if_neg (show ¬((gd.map (fun p => JSValue.str p.1)).length > 50) by
        simpa using hlen)]
  rw [if_neg (show ¬(([] : List JSValue).length > 50) by simp)]
  rw [filteredOf_full_keys]
  rfl

/-- Witness for C6 (amended) on a one-company dataset with a clean
key. -/
theorem secureFilterData_empty_selection_matches_full_witness :
    secureFilterData gdQ4 (gdQ4.map (fun p => JSValue.str p.1))
        (.num 2020) (.num 2020) (.num 1) (.num 4) =
      secureFilterData gdQ4 [] (.num 2020) (.num 2020) (.num 1) (.num 4) :=
  secureFilterData_empty_selection_matches_full gdQ4 _ _ _ _ (by decide) (by decide)

/-! ## Claim C2 — the 5000-record cap and sort order -/

/-- C2 counterexample: the claim says that when more than 5000 records
match, the result is exactly the 5000 earliest-dated matches in
ascending date order, i.e. `take 5000` of the date-sorted match list.
The source instead slices the first 5000 of the traversal-ordered
(company-major) match list and only then sorts. On `gdC2` — company `A`
first with one 2025 record, company `B` with 5000 earlier 2020 records
— the sliced result retains the 2025 record, which is not among the
5000 earliest-dated matches, so the two disagree at this concrete
input. -/
theorem secureFilterData_cap_not_earliest :
    secureFilterData gdC2 [] (.num 1900) (.num 2030) (.num 1) (.num 4) ≠
      Except.ok ((sortByDate (filteredOf gdC2 [] 1900 2030 1 4)).take 5000) := by
  have hmA : matchesRange 1900 2030 1 4 recA2 = true := by decide
  have hmB : matchesRange 1900 2030 1 4 recB2 = true := by decide
  have hF : filteredOf gdC2 [] 1900 2030 1 4 = recA2 :: List.replicate 5000 recB2 := by
    rw [filteredOf_nil]
    rw [show gdC2 = [("A", [recA2]), ("B", List.replicate 5000 recB2)] from rfl]
    rw [List.flatMap_cons, List.flatMap_cons, List.flatMap_nil]
    rw [List.filter_cons, if_pos hmA, List.filter_nil, List.filter_replicate, if_pos hmB]
    rw [List.append_nil, List.singleton_append]
  have htake : (recA2 :: List.replicate 5000 recB2).take 5000 =
      recA2 :: List.replicate 4999 recB2 := by
    rw [show (5000 : Nat) = 4999 + 1 from rfl, List.take_succ_cons, List.take_replicate]
    norm_num
  have hlen5001 : (recA2 :: List.replicate 5000 recB2).length = 5001 := by
    rw [List.length_cons, List.length_replicate]
  have hok : secureFilterData gdC2 [] (.num 1900) (.num 2030) (.num 1) (.num 4) =
      .ok (sortByDate (recA2 :: List.replicate 4999 recB2)) := by
    rw [@secureFilterData_ok gdC2 [] (.num 1900) (.num 2030) (.num 1) (.num 4)
        1900 2030 1 4 (by decide) (by decide) (by decide) (by decide) (by decide)
        (by decide)]
    rw [show selectedOf ([] : List JSValue) = [] from rfl, hF]
    rw [if_pos (by rw [hlen5001]; norm_num), htake]
  rw [hok, hF]
  intro heq
  injection heq with heq
  have hmemL : recA2 ∈ sortByDate (recA2 :: List.replicate 4999 recB2) :=
    (List.perm_insertionSort dateLE _).mem_iff.mpr (List.mem_cons_self _ _)
  rw [heq] at hmemL
  revert hmemL
  have hperm : (sortByDate (recA2 :: List.replicate 5000 recB2)).Perm
      (recA2 :: List.replicate 5000 recB2) := List.perm_insertionSort dateLE _
  have hsort : List.Sorted dateLE (sortByDate (recA2 :: List.replicate 5000 recB2)) :=
    List.sorted_insertionSort dateLE _
  have hlenL : (sortByDate (recA2 :: List.replicate 5000 recB2)).length = 5001 := by
    rw [hperm.length_eq, hlen5001]
  have hBA : (recB2 == recA2) = false := by decide
  have hcount : (sortByDate (recA2 :: List.replicate 5000 recB2)).count recA2 = 1 := by
    rw [hperm.count_eq, List.count_cons_self, List.count_replicate, hBA]
    norm_num
  intro hmem
  obtain ⟨x, hxdrop⟩ : ∃ x, (sortByDate (recA2 :: List.replicate 5000 recB2)).drop 5000
      = [x] := by
    apply List.length_eq_one.mp
    rw [List.length_drop, hlenL]
  have hxL : x ∈ sortByDate (recA2 :: List.replicate 5000 recB2) := by
    rw [← List.take_append_drop 5000 (sortByDate (recA2 :: List.replicate 5000 recB2))]
    exact List.mem_append_right _ (by rw [hxdrop]; exact List.mem_singleton.mpr rfl)
  have hpair : dateLE recA2 x := by
    have hs : List.Sorted dateLE
        ((sortByDate (recA2 :: List.replicate 5000 recB2)).take 5000 ++
         (sortByDate (recA2 :: List.replicate 5000 recB2)).drop 5000) := by
      rw [List.take_append_drop]
      exact hsort
    exact (List.pairwise_append.mp hs).2.2 recA2 hmem x
      (by rw [hxdrop]; exact List.mem_singleton.mpr rfl)
  have hxcase : x = recA2 ∨ x = recB2 := by
    rcases List.mem_cons.mp (hperm.mem_iff.mp hxL) with h | h
    · exact Or.inl h
    · exact Or.inr (List.eq_of_mem_replicate h)
  rcases hxcase with rfl | rfl
  · have hc1 : 0 < ((sortByDate (recA2 :: List.replicate 5000 recB2)).take 5000).count recA2 :=
      List.count_pos_iff.mpr hmem
    have hc2 : ((sortByDate (recA2 :: List.replicate 5000 recB2)).drop 5000).count recA2
        = 1 := by
      rw [hxdrop, List.count_singleton]
      norm_num
    have hc3 : (sortByDate (recA2 :: List.replicate 5000 recB2)).count recA2 =
        ((sortByDate (recA2 :: List.replicate 5000 recB2)).take 5000).count recA2 +
        ((sortByDate (recA2 :: List.replicate 5000 recB2)).drop 5000).count recA2 := by
      rw [← List.count_append, List.take_append_drop]
    omega
  · exact absurd hpair (by decide)

/-- C2 (amended): when more than 5000 records match, `secureFilterData`
returns — without error — the first 5000 matches in *traversal order*
(company-major, as the grouped structure is walked), sorted ascending
by date; when at most 5000 match it returns all matches sorted
ascending by date; in every case the returned sequence is non-decreasing
by date. -/
theorem secureFilterData_cap_traversal_order_and_sorted
    (gd : List (String × List CombinedRecord)) (sel : List JSValue)
    (sy ey sq eq : JSValue) (vsy vey vsq veq : Int)
    (h1 : validateInteger sy 1900 2030 = some vsy)
    (h2 : validateInteger ey 1900 2030 = some vey)
    (h3 : validateInteger sq 1 4 = some vsq)
    (h4 : validateInteger eq 1 4 = some veq)
    (hle : vsy ≤ vey) (hlen : sel.length ≤ 50) :
    ∃ res, secureFilterData gd sel sy ey sq eq = .ok res ∧
      List.Sorted dateLE res ∧
      ((filteredOf gd (selectedOf sel) vsy vey vsq veq).length ≤ 5000 →
        res.Perm (filteredOf gd (selectedOf sel) vsy vey vsq veq)) ∧
      ((filteredOf gd (selectedOf sel) vsy vey vsq veq).length > 5000 →
        res.Perm ((filteredOf gd (selectedOf sel) vsy vey vsq veq).take 5000)) := by
  rw [secureFilterData_ok h1 h2 h3 h4 hle hlen]
  by_cases hcap : (filteredOf gd (selectedOf sel) vsy vey vsq veq).length > 5000
  · rw [if_pos hcap]
    exact ⟨_, rfl, List.sorted_insertionSort dateLE _,
      fun hc => absurd hcap (by omega),
      fun _ => List.perm_insertionSort dateLE _⟩
  · rw [if_neg hcap]
    exact ⟨_, rfl, List.sorted_insertionSort dateLE _,
      fun _ => List.perm_insertionSort dateLE _,
      fun hc => absurd hc hcap⟩

/-- Witness for C2 (amended) on the one-record dataset. -/
theorem secureFilterData_cap_traversal_order_and_sorted_witness :
    ∃ res, secureFilterData gdQ4 [] (.num 2020) (.num 2020) (.num 1) (.num 4) = .ok res ∧
      List.Sorted dateLE res ∧
      ((filteredOf gdQ4 (selectedOf []) 2020 2020 1 4).length ≤ 5000 →
        res.Perm (filteredOf gdQ4 (selectedOf []) 2020 2020 1 4)) ∧
      ((filteredOf gdQ4 (selectedOf []) 2020 2020 1 4).length > 5000 →
        res.Perm ((filteredOf gdQ4 (selectedOf []) 2020 2020 1 4).take 5000)) :=
  @secureFilterData_cap_traversal_order_and_sorted gdQ4 []
    (.num 2020) (.num 2020) (.num 1) (.num 4) 2020 2020 1 4
    (by decide) (by decide) (by decide) (by decide) (by decide) (by decide)

/-! ## Shared lemmas about the join loop -/

lemma tryJoin_id {forms : List FormRecord} {stocks : List StockRecord}
    {task : TaskRecord} {r : CombinedRecord}
    (h : tryJoin forms stocks task = some r) : r.id = task.formId := by
  unfold tryJoin at h
  rcases h1 : mapGet FormRecord.id forms task.formId with _ | form <;>
    rw [h1] at h <;> dsimp only at h
  · simp at h
  · rcases h2 : mapGet StockRecord.cik stocks form.cik with _ | stock <;>
      rw [h2] at h <;> dsimp only at h
    · simp at h
    · rcases h3 : parseISODate form.valueDate with _ | d <;>
        rw [h3] at h <;> dsimp only at h
      · simp at h
      · split at h
        · simp at h
        · split at h
          · simp at h
          · cases h
            rfl

lemma joinStep_seen {forms : List FormRecord} {stocks : List StockRecord}
    {seen : List String} {acc : List CombinedRecord} {t : TaskRecord}
    (h : seen.contains t.formId = true) :
    joinStep forms stocks (seen, acc) t = (seen, acc) := by
  unfold joinStep
  rw [if_pos h]

lemma joinStep_fresh_none {forms : List FormRecord} {stocks : List StockRecord}
    {seen : List String} {acc : List CombinedRecord} {t : TaskRecord}
    (h : ¬seen.contains t.formId = true) (hj : tryJoin forms stocks t = none) :
    joinStep forms stocks (seen, acc) t = (t.formId :: seen, acc) := by
  unfold joinStep
  rw [if_neg h]
  dsimp only
  rw [hj]

lemma joinStep_fresh_some {forms : List FormRecord} {stocks : List StockRecord}
    {seen : List String} {acc : List CombinedRecord} {t : TaskRecord} {r : CombinedRecord}
    (h : ¬seen.contains t.formId = true) (hj : tryJoin forms stocks t = some r) :
    joinStep forms stocks (seen, acc) t = (t.formId :: seen, acc ++ [r]) := by
  unfold joinStep
  rw [if_neg h]
  dsimp only
  rw [hj]

lemma dedupByFormIdGo_cons (seen : List String) (t : TaskRecord) (ts : List TaskRecord) :
    dedupByFormIdGo seen (t :: ts) =
      if seen.contains t.formId then dedupByFormIdGo seen ts
      else t :: dedupByFormIdGo (t.formId :: seen) ts := rfl

/-- The join fold is unchanged by dropping, in advance, every task whose
`formId` already occurred (relative to the running `seen` set). -/
lemma joinFold_dedup (forms : List FormRecord) (stocks : List StockRecord) :
    ∀ (tasks : List TaskRecord) (seen : List String) (acc : List CombinedRecord),
    tasks.foldl (joinStep forms stocks) (seen, acc) =
      (dedupByFormIdGo seen tasks).foldl (joinStep forms stocks) (seen, acc) := by
  intro tasks
  induction tasks with
  | nil => intro seen acc; rfl
  | cons t ts ih =>
    intro seen acc
    by_cases h : seen.contains t.formId = true
    · rw [List.foldl_cons, joinStep_seen h, dedupByFormIdGo_cons, if_pos h]
      exact ih seen acc
    · rw [dedupByFormIdGo_cons, if_neg h]
      rw [List.foldl_cons, List.foldl_cons]
      rcases hjr : tryJoin forms stocks t with _ | r
      · rw [joinStep_fresh_none h hjr]
        exact ih (t.formId :: seen) acc
      · rw [joinStep_fresh_some h hjr]
        exact ih (t.formId :: seen) (acc ++ [r])

/-- Records accumulated by the join fold carry ids from the `seen` set,
and their ids stay duplicate-free. -/
lemma joinFold_nodup (forms : List FormRecord) (stocks : List StockRecord) :
    ∀ (tasks : List TaskRecord) (seen : List String) (acc : List CombinedRecord),
    (∀ r ∈ acc, r.id ∈ seen) → (acc.map CombinedRecord.id).Nodup →
    (∀ r ∈ (tasks.foldl (joinStep forms stocks) (seen, acc)).2,
        r.id ∈ (tasks.foldl (joinStep forms stocks) (seen, acc)).1) ∧
    ((tasks.foldl (joinStep forms stocks) (seen, acc)).2.map CombinedRecord.id).Nodup := by
  intro tasks
  induction tasks with
  | nil => intro seen acc hsub hnd; exact ⟨hsub, hnd⟩
  | cons t ts ih =>
    intro seen acc hsub hnd
    rw [List.foldl_cons]
    by_cases h : seen.contains t.formId = true
    · rw [joinStep_seen h]
      exact ih seen acc hsub hnd
    · rcases hjr : tryJoin forms stocks t with _ | r
      · rw [joinStep_fresh_none h hjr]
        exact ih _ _ (fun r hr => List.mem_cons_of_mem _ (hsub r hr)) hnd
      · rw [joinStep_fresh_some h hjr]
        apply ih
        · intro r2 hr2
          rcases List.mem_append.mp hr2 with h2 | h2
          · exact List.mem_cons_of_mem _ (hsub r2 h2)
          · rw [List.mem_singleton.mp h2, tryJoin_id hjr]
            exact List.mem_cons_self _ _
        · rw [List.map_append]
          refine List.Nodup.append hnd (by simp) ?_
          intro a ha hb
          rw [List.map_singleton, List.mem_singleton, tryJoin_id hjr] at hb
          subst hb
          obtain ⟨r2, hr2, hrid⟩ := List.mem_map.mp ha
          exact h (List.elem_eq_true_of_mem (hrid ▸ hsub r2 hr2))

/-- Once a form id is in the `seen` set, the fold can only emit records
with other ids beyond what is already accumulated. -/
lemma joinFold_no_new_id (forms : List FormRecord) (stocks : List StockRecord) :
    ∀ (tasks : List TaskRecord) (seen : List String) (acc : List CombinedRecord)
      (F : String), F ∈ seen →
    ∀ r ∈ (tasks.foldl (joinStep forms stocks) (seen, acc)).2, r ∈ acc ∨ r.id ≠ F := by
  intro tasks
  induction tasks with
  | nil => intro seen acc F hF r hr; exact Or.inl hr
  | cons t ts ih =>
    intro seen acc F hF r hr
    rw [List.foldl_cons] at hr
    by_cases h : seen.contains t.formId = true
    · rw [joinStep_seen h] at hr
      exact ih seen acc F hF r hr
    · rcases hjr : tryJoin forms stocks t with _ | r0
      · rw [joinStep_fresh_none h hjr] at hr
        exact ih _ acc F (List.mem_cons_of_mem _ hF) r hr
      · rw [joinStep_fresh_some h hjr] at hr
        rcases ih _ _ F (List.mem_cons_of_mem _ hF) r hr with h2 | h2
        · rcases List.mem_append.mp h2 with h3 | h3
          · exact Or.inl h3
          · right
            rw [List.mem_singleton.mp h3, tryJoin_id hjr]
            intro hcontra
            rw [hcontra] at h
            exact h (List.elem_eq_true_of_mem hF)
        · exact Or.inr h2

/-- If the first task carrying form id `F` fails to join, no record with
id `F` is ever emitted by the fold. -/
lemma joinFold_first_fail (forms : List FormRecord) (stocks : List StockRecord) :
    ∀ (tasks : List TaskRecord) (seen : List String) (acc : List CombinedRecord)
      (F : String) (t : TaskRecord),
    tasks.find? (fun u => u.formId == F) = some t →
    tryJoin forms stocks t = none →
    (∀ r ∈ acc, r.id ≠ F) →
    ∀ r ∈ (tasks.foldl (joinStep forms stocks) (seen, acc)).2, r.id ≠ F := by
  intro tasks
  induction tasks with
  | nil => intro seen acc F t hfind; simp at hfind
  | cons u ts ih =>
    intro seen acc F t hfind hfail hacc r hr
    rw [List.foldl_cons] at hr
    by_cases hu : (u.formId == F) = true
    · have htu : t = u := by
        have hfind0 : (u :: ts).find? (fun u2 => u2.formId == F) = some u :=
          List.find?_cons_of_pos _ hu
        rw [hfind0] at hfind
        exact (Option.some.inj hfind).symm
      subst htu
      have hFu : F = t.formId := (beq_iff_eq.mp hu).symm
      subst hFu
      by_cases h : seen.contains t.formId = true
      · rw [joinStep_seen h] at hr
        rcases joinFold_no_new_id forms stocks ts seen acc t.formId
            (List.mem_of_elem_eq_true h) r hr with h2 | h2
        · exact hacc r h2
        · exact h2
      · rw [joinStep_fresh_none h hfail] at hr
        rcases joinFold_no_new_id forms stocks ts (t.formId :: seen) acc t.formId
            (List.mem_cons_self _ _) r hr with h2 | h2
        · exact hacc r h2
        · exact h2
    · have hfind2 : ts.find? (fun u2 => u2.formId == F) = some t := by
        have hfind0 : (u :: ts).find? (fun u2 => u2.formId == F) =
            ts.find? (fun u2 => u2.formId == F) :=
          List.find?_cons_of_neg _ (by simpa using hu)
        rw [hfind0] at hfind
        exact hfind
      by_cases h : seen.contains u.formId = true
      · rw [joinStep_seen h] at hr
        exact ih seen acc F t hfind2 hfail hacc r hr
      · rcases hjr : tryJoin forms stocks u with _ | r0
        · rw [joinStep_fresh_none h hjr] at hr
          exact ih _ acc F t hfind2 hfail hacc r hr
        · rw [joinStep_fresh_some h hjr] at hr
          refine ih _ _ F t hfind2 hfail ?_ r hr
          intro r2 hr2
          rcases List.mem_append.mp hr2 with h3 | h3
          · exact hacc r2 h3
          · rw [List.mem_singleton.mp h3, tryJoin_id hjr]
            intro hcontra
            rw [hcontra] at hu
            simp at hu

/-! ## Claim C5 — duplicate form ids: first seen wins -/

/-- C5: the join loop computes exactly the same combined data as it
would on the task list with every later duplicate (by `formId`) removed
— so at most the first task with a given form id contributes a record —
and, independently, the emitted records have pairwise distinct ids. -/
theorem combineData_first_seen_wins (forms : List FormRecord)
    (stocks : List StockRecord) (tasks : List TaskRecord) :
    combineData forms stocks tasks = combineData forms stocks (dedupByFormId tasks) ∧
    ((combineData forms stocks tasks).map CombinedRecord.id).Nodup := by
  constructor
  · unfold combineData dedupByFormId
    rw [joinFold_dedup forms stocks tasks [] []]
  · exact (joinFold_nodup forms stocks tasks [] [] (by simp) (by simp)).2

/-! ## Claim C9 — a failed first duplicate blocks later ones -/

/-- C9: the join loop marks a form id as processed at first encounter,
before any linkability or bounds check; hence if the first task with
form id `F` fails to join, no combined record with id `F` exists, even
when a later task with the same id would have joined. -/
theorem combineData_first_failure_blocks (forms : List FormRecord)
    (stocks : List StockRecord) (tasks : List TaskRecord) (F : String) (t : TaskRecord)
    (hfind : tasks.find? (fun u => u.formId == F) = some t)
    (hfail : tryJoin forms stocks t = none) :
    ∀ r ∈ combineData forms stocks tasks, r.id ≠ F :=
  joinFold_first_fail forms stocks tasks [] [] F t hfind hfail (by simp)

/-- Witness for C9: with the spec's scenario records plus an unlinkable
task of form id `9` placed first, the task of form id `1` still joins,
and the resulting record's id is not `9`. -/
theorem combineData_first_failure_blocks_witness : recW.id ≠ "9" :=
  combineData_first_failure_blocks [formW] [stockW] [taskW9, taskW1] "9" taskW9
    (by decide) (by decide) recW (by decide)

/-! ## Shared lemmas about the aggregator -/

lemma pushRecord_nil (item : CombinedRecord) :
    pushRecord [] item = [(item.company, [item])] := rfl

lemma pushRecord_cons (k : String) (grp : List CombinedRecord)
    (rest : List (String × List CombinedRecord)) (item : CombinedRecord) :
    pushRecord ((k, grp) :: rest) item =
      if k = item.company then (k, grp ++ [item]) :: rest
      else (k, grp) :: pushRecord rest item := rfl

lemma pushRecord_keys (gd : List (String × List CombinedRecord)) (item : CombinedRecord) :
    (pushRecord gd item).map Prod.fst =
      if item.company ∈ gd.map Prod.fst then gd.map Prod.fst
      else gd.map Prod.fst ++ [item.company] := by
  induction gd with
  | nil => simp [pushRecord_nil]
  | cons kv rest ih =>
    obtain ⟨k, grp⟩ := kv
    rw [pushRecord_cons]
    by_cases hk : k = item.company
    · rw [if_pos hk]
      subst hk
      simp
    · rw [if_neg hk]
      simp only [List.map_cons, ih]
      by_cases hmem : item.company ∈ rest.map Prod.fst
      · rw [if_pos hmem, if_pos (by simp [hmem])]
      · rw [if_neg hmem, if_neg (by simp [hmem, Ne.symm hk])]
        simp

lemma pushRecord_inv {gd : List (String × List CombinedRecord)} {item : CombinedRecord}
    (hgd : ∀ p ∈ gd, ∀ r ∈ p.2, r.company = p.1) :
    ∀ p ∈ pushRecord gd item, ∀ r ∈ p.2, r.company = p.1 := by
  induction gd with
  | nil =>
    intro p hp r hr
    rw [pushRecord_nil] at hp
    rw [List.mem_singleton.mp hp] at hr ⊢
    rw [List.mem_singleton.mp hr]
  | cons kv rest ih =>
    obtain ⟨k, grp⟩ := kv
    intro p hp r hr
    rw [pushRecord_cons] at hp
    by_cases hk : k = item.company
    · rw [if_pos hk] at hp
      rcases List.mem_cons.mp hp with rfl | hp2
      · rcases List.mem_append.mp hr with h2 | h2
        · exact hgd (k, grp) (List.mem_cons_self _ _) r h2
        · rw [List.mem_singleton.mp h2]
          exact hk.symm
      · exact hgd p (List.mem_cons_of_mem _ hp2) r hr
    · rw [if_neg hk] at hp
      rcases List.mem_cons.mp hp with rfl | hp2
      · exact hgd (k, grp) (List.mem_cons_self _ _) r hr
      · exact ih (fun q hq => hgd q (List.mem_cons_of_mem _ hq)) p hp2 r hr

lemma pushRecord_flatten (gd : List (String × List CombinedRecord)) (item : CombinedRecord) :
    ((pushRecord gd item).map Prod.snd).flatten.Perm
      ((gd.map Prod.snd).flatten ++ [item]) := by
  induction gd with
  | nil => simp [pushRecord_nil]
  | cons kv rest ih =>
    obtain ⟨k, grp⟩ := kv
    rw [pushRecord_cons]
    by_cases hk : k = item.company
    · rw [if_pos hk]
      simp only [List.map_cons, List.flatten_cons]
      rw [List.append_assoc, List.append_assoc]
      exact List.Perm.append_left grp List.perm_append_comm
    · rw [if_neg hk]
      simp only [List.map_cons, List.flatten_cons]
      rw [List.append_assoc]
      exact List.Perm.append_left grp ih

lemma groupFold_inv :
    ∀ (l : List CombinedRecord) (acc : List (String × List CombinedRecord)),
    (∀ p ∈ acc, ∀ r ∈ p.2, r.company = p.1) →
    ∀ p ∈ l.foldl pushRecord acc, ∀ r ∈ p.2, r.company = p.1 := by
  intro l
  induction l with
  | nil => intro acc h; exact h
  | cons x xs ih =>
    intro acc h
    rw [List.foldl_cons]
    exact ih _ (pushRecord_inv h)

lemma groupFold_flatten :
    ∀ (l : List CombinedRecord) (acc : List (String × List CombinedRecord)),
    ((l.foldl pushRecord acc).map Prod.snd).flatten.Perm
      ((acc.map Prod.snd).flatten ++ l) := by
  intro l
  induction l with
  | nil => intro acc; simp
  | cons x xs ih =>
    intro acc
    rw [List.foldl_cons]
    refine (ih (pushRecord acc x)).trans ?_
    refine (List.Perm.append_right xs (pushRecord_flatten acc x)).trans ?_
    rw [List.append_assoc, List.singleton_append]

lemma groupFold_keys_nodup :
    ∀ (l : List CombinedRecord) (acc : List (String × List CombinedRecord)),
    (acc.map Prod.fst).Nodup → ((l.foldl pushRecord acc).map Prod.fst).Nodup := by
  intro l
  induction l with
  | nil => intro acc h; exact h
  | cons x xs ih =>
    intro acc h
    rw [List.foldl_cons]
    apply ih
    rw [pushRecord_keys]
    by_cases hm : x.company ∈ acc.map Prod.fst
    · rw [if_pos hm]
      exact h
    · rw [if_neg hm]
      simp [List.nodup_append, h, hm]

/-! ## Claim C7 — groupedData partitions combinedData -/

/-- C7: in every dataset the pipeline returns, the group keys are
pairwise distinct, every record of a group carries that group's key as
its own company, the concatenation of all groups is a permutation of
`combinedData` (so the groups cover every record exactly once and
contain nothing outside `combinedData`), and every record of
`combinedData` lies in the group keyed by its own company. -/
theorem processSecureFinancialData_partition (stockRows : List StockRow)
    (formRows : List FormRow) (taskRows : List TaskRow) (ds : Dataset)
    (h : processSecureFinancialData stockRows formRows taskRows = .ok ds) :
    (ds.groupedData.map Prod.fst).Nodup ∧
    (∀ p ∈ ds.groupedData, ∀ r ∈ p.2, r.company = p.1) ∧
    ((ds.groupedData.map Prod.snd).flatten.Perm ds.combinedData) ∧
    (∀ r ∈ ds.combinedData, ∃ p ∈ ds.groupedData, p.1 = r.company ∧ r ∈ p.2) := by
  unfold processSecureFinancialData processSanitizedData at h
  split at h
  · exact absurd h (by simp)
  split at h
  · exact absurd h (by simp)
  split at h
  · exact absurd h (by simp)
  dsimp only at h
  split at h
  · exact absurd h (by simp)
  split at h
  · exact absurd h (by simp)
  obtain rfl := (Except.ok.inj h).symm
  refine ⟨groupFold_keys_nodup _ [] (by simp), groupFold_inv _ [] (by simp), ?_, ?_⟩
  · have hflat := groupFold_flatten
      (sortByDate (combineData (List.filterMap sanitizeFormData formRows)
        (List.filterMap sanitizeStockData stockRows)
        (List.filterMap sanitizeTaskData taskRows))) []
    simpa using hflat
  · intro r hr
    have hflat := groupFold_flatten
      (sortByDate (combineData (List.filterMap sanitizeFormData formRows)
        (List.filterMap sanitizeStockData stockRows)
        (List.filterMap sanitizeTaskData taskRows))) []
    have hr2 : r ∈ ((groupByCompany (sortByDate (combineData
        (List.filterMap sanitizeFormData formRows)
        (List.filterMap sanitizeStockData stockRows)
        (List.filterMap sanitizeTaskData taskRows)))).map Prod.snd).flatten := by
      apply hflat.mem_iff.mpr
      simpa using hr
    obtain ⟨grp, hgrp, hrg⟩ := List.mem_flatten.mp hr2
    obtain ⟨p, hp, hps⟩ := List.mem_map.mp hgrp
    refine ⟨p, hp, ?_, by rw [hps]; exact hrg⟩
    exact (groupFold_inv _ [] (by simp) p hp r (by rw [hps]; exact hrg)).symm

/-- Witness for C7: the pipeline on the spec's three-row scenario
yields `dsW`; its single group is keyed by the record's company, the
flattened groups are a permutation of `combinedData`, and the combined
record lies in its company's group. -/
theorem processSecureFinancialData_partition_witness :
    (dsW.groupedData.map Prod.fst).Nodup ∧
    ((dsW.groupedData.map Prod.snd).flatten.Perm dsW.combinedData) ∧
    (∃ p ∈ dsW.groupedData, p.1 = recW.company ∧ recW ∈ p.2) :=
  have hthm := processSecureFinancialData_partition [stockRowW] [formRowW] [taskRowW]
    dsW (by decide)
  ⟨hthm.1, hthm.2.2.1, hthm.2.2.2 recW (by decide)⟩
